import Mathlib

/-!
Shallow embedding of the provider-state-aware mock HTTP server of
`mock-server.js`: the route-variant data model, the StateManager
(state registry and matching engine), the conflict validator, and the
control-endpoint handler `_handleSetState`.

Machine model: JS strings are Lean `String`s, JS arrays are Lean `List`s,
the JS `Map`/`Set` fields of the StateManager singleton are association
lists / membership lists, and `null`/`undefined` is `Option.none`.
-/

namespace MockServer

/-- A response descriptor as produced by `createRouteConfig`:
`{ status, headers, body }`.  Headers and body never influence matching,
so they are carried as an opaque payload string distinguishing variants. -/
structure RouteConfig where
  status : Nat
  body : String
deriving DecidableEq, Repr

/-- One entry of a RouteKey's variant list, as pushed by
`StateManager.addRoute`: `{ routeConfig, states, isCustom }`. -/
structure RouteOption where
  routeConfig : RouteConfig
  states : List String
  isCustom : Bool
deriving DecidableEq, Repr

/-- JS `String.prototype.toUpperCase()`, written on the character list
so that it evaluates by reduction. -/
def jsToUpperCase (s : String) : String :=
  String.mk (s.data.map Char.toUpper)

/-- `createRouteKey(method, path)` = `` `${method.toUpperCase()}:${path}` ``. -/
def createRouteKey (method path : String) : String :=
  jsToUpperCase method ++ ":" ++ path

/-- `findSuccessRoute(options)`: first option whose status is in 200..299. -/
def findSuccessRoute (options : List RouteOption) : Option RouteOption :=
  options.find? fun opt =>
    200 ≤ opt.routeConfig.status && opt.routeConfig.status < 300

/-- `findNoStateRoutes(options)`: options whose state list is empty. -/
def findNoStateRoutes (options : List RouteOption) : List RouteOption :=
  options.filter fun opt => opt.states.length = 0

/-- JS `String.prototype.split(sep)` for a one-character separator,
acting on the character list of the string. -/
def splitChar (sep : Char) : List Char → List (List Char)
  | [] => [[]]
  | c :: cs =>
    if c = sep then [] :: splitChar sep cs
    else
      match splitChar sep cs with
      | [] => [[c]]
      | g :: gs => (c :: g) :: gs

/-- `const [, routePath] = routeKey.split(":")` — the second piece of the
colon-split of the route key.  Keys built by `createRouteKey` always
contain a colon, so the fallback `""` is never reached for them. -/
def routePathOf (routeKey : String) : String :=
  match splitChar ':' routeKey.data with
  | _ :: p :: _ => String.mk p
  | _ => ""

/-- JS `String.prototype.startsWith(prefix)`: a prefix test, written on
the character lists so that it evaluates by reduction. -/
def jsStartsWith (s pre : String) : Bool :=
  pre.data.isPrefixOf s.data

/-- The mutable fields of the `StateManager` singleton (the state registry)
together with its route table.  `availableStates` is the `Set` of all
known state names (membership is what matters); `stateRoutes` is the
`Map` from route key to its ordered variant list. -/
structure StateManager where
  currentStates : List String
  currentPath : Option String
  availableStates : List String
  stateRoutes : List (String × List RouteOption)
deriving DecidableEq, Repr

/-- `Map.prototype.get` on the route table. -/
def lookupRoutes (stateRoutes : List (String × List RouteOption))
    (routeKey : String) : Option (List RouteOption) :=
  (stateRoutes.find? fun kv => kv.1 = routeKey).map fun kv => kv.2

/-- Result object of `StateManager.setStates`. -/
structure SetStatesResult where
  warnings : List String
  validStates : List String
  availableStates : List String
deriving DecidableEq, Repr

/-- `StateManager.setStates(states, path)`: filter the requested names
through `availableStates`, pushing one warning per rejected name, then
replace `currentStates` and `currentPath`. -/
def StateManager.setStates (sm : StateManager) (states : List String)
    (path : Option String) : StateManager × SetStatesResult :=
  let validStates := states.filter fun s => sm.availableStates.contains s
  let warnings := (states.filter fun s => !sm.availableStates.contains s).map
    fun s => s ++ " not found in contracts or custom routes"
  ({ sm with currentStates := validStates, currentPath := path },
   { warnings := warnings, validStates := validStates,
     availableStates := sm.availableStates })

/-- `StateManager.reset()`. -/
def StateManager.reset (sm : StateManager) : StateManager :=
  { sm with currentStates := [], currentPath := none }

/-- The block that `_getDefaultRoute` runs first on the contract options
and then on the custom options: if no-state options exist, the first
2xx one of them, else the first of them; otherwise the first 2xx
option, if any. -/
def pickDefault (opts : List RouteOption) : Option RouteConfig :=
  match findNoStateRoutes opts with
  | [] => (findSuccessRoute opts).map fun r => r.routeConfig
  | n :: ns => some (((findSuccessRoute (n :: ns)).getD n).routeConfig)

/-- `StateManager._getDefaultRoute(options)`: contract options first,
then custom options, each through `pickDefault`; last resort
`options[0].routeConfig`. -/
def StateManager.getDefaultRoute (options : List RouteOption) :
    Option RouteConfig :=
  let contractOptions := options.filter fun opt => !opt.isCustom
  let customOptions := options.filter fun opt => opt.isCustom
  match (if contractOptions.length > 0 then pickDefault contractOptions
         else none) with
  | some rc => some rc
  | none =>
    match (if customOptions.length > 0 then pickDefault customOptions
           else none) with
    | some rc => some rc
    | none => (options.head?).map fun opt => opt.routeConfig

/-- The active-state scan of `StateManager.findRoute`: iterate
`currentStates` in order; for each, the first option whose state list
contains it wins. -/
def firstStateMatch : List String → List RouteOption → Option RouteConfig
  | [], _ => none
  | s :: rest, options =>
    match options.find? fun opt => opt.states.contains s with
    | some m => some m.routeConfig
    | none => firstStateMatch rest options

/-- `StateManager.findRoute(routeKey)`. -/
def StateManager.findRoute (sm : StateManager) (routeKey : String) :
    Option RouteConfig :=
  match lookupRoutes sm.stateRoutes routeKey with
  | none => none
  | some options =>
    if options.length = 0 then none
    else if sm.currentStates.length > 0 then
      let scopedOut :=
        match sm.currentPath with
        | some p => !jsStartsWith (routePathOf routeKey) p
        | none => false
      if scopedOut then StateManager.getDefaultRoute options
      else
        match firstStateMatch sm.currentStates options with
        | some rc => some rc
        | none => StateManager.getDefaultRoute options
    else StateManager.getDefaultRoute options

/-- JS `[...new Set(xs)]`: deduplicate keeping the first occurrence of
each element, in order. -/
def setDedup : List String → List String
  | [] => []
  | s :: rest => s :: (setDedup rest).filter fun t => t ≠ s

/-- One entry pushed onto the `conflicts` array of
`StateManager.validateNoConflicts`. -/
structure Conflict where
  route : String
  conflictingStates : List String
deriving DecidableEq, Repr

/-- The inner double loop of `validateNoConflicts` for one route key:
for every (custom option, contract option) pair whose state sets
overlap, record the route key and the overlapping states. -/
def conflictsForKey (routeKey : String) (options : List RouteOption) :
    List Conflict :=
  let customOptions := options.filter fun opt => opt.isCustom
  let contractOptions := options.filter fun opt => !opt.isCustom
  if customOptions.length > 0 && contractOptions.length > 0 then
    customOptions.flatMap fun customOpt =>
      contractOptions.filterMap fun contractOpt =>
        if (setDedup customOpt.states).any
            (fun s => contractOpt.states.contains s) then
          some { route := routeKey,
                 conflictingStates := (setDedup customOpt.states).filter
                   fun s => contractOpt.states.contains s }
        else none
  else []

/-- The full `conflicts` array accumulated over the route table. -/
def collectConflicts (stateRoutes : List (String × List RouteOption)) :
    List Conflict :=
  stateRoutes.flatMap fun kv => conflictsForKey kv.1 kv.2

/-- The message thrown by `validateNoConflicts` when conflicts exist. -/
def conflictErrorMessage (conflicts : List Conflict) : String :=
  "Custom route conflicts detected:\n" ++
    String.intercalate "\n" (conflicts.map fun c =>
      "Route " ++ c.route ++ " has conflicting states: " ++
        String.intercalate ", " c.conflictingStates) ++
    "\n\nCustom routes cannot use the same state as contract routes for the same endpoint."

/-- `StateManager.validateNoConflicts()`: `Except.error` models `throw`. -/
def StateManager.validateNoConflicts
    (stateRoutes : List (String × List RouteOption)) : Except String Unit :=
  let conflicts := collectConflicts stateRoutes
  if conflicts.length > 0 then
    Except.error (conflictErrorMessage conflicts)
  else Except.ok ()

/-- A parsed body of `POST /api/mock-server/state`: either the
`JSON.parse` call threw (with some detail message), or it produced an
object whose `state`, `states` and `path` fields are read.  A missing
field is `none`. -/
inductive StateRequestBody where
  | invalidJson (detail : String)
  | obj (state : Option String) (states : Option (List String))
        (path : Option String)
deriving DecidableEq, Repr

/-- `data.state ? [data.state] : data.states || []` — the requested-name
list derived by `_handleSetState`.  A present but empty-string `state`
field is falsy in JS, so it falls through to `states`. -/
def requestedStates : StateRequestBody → List String
  | .invalidJson _ => []
  | .obj st sts _ =>
    match st with
    | some s => if s ≠ "" then [s] else sts.getD []
    | none => sts.getD []

/-- The HTTP outcome of a control-endpoint call: status code plus the
relevant JSON fields of the response body. -/
structure ControlOutcome where
  status : Nat
  errorText : Option String
  message : Option String
  validStates : List String
  warnings : List String
deriving DecidableEq, Repr

/-- The 400 payload for a body with neither a truthy `state` nor a
non-empty `states`. -/
def invalidFormatText : String :=
  "Invalid request format. Expected \x7b\"state\": \"name\"\x7d or \x7b\"states\": [\"name1\", \"name2\"]\x7d"

/-- `Server._handleSetState`: parse outcome in, new registry state and
HTTP outcome out. -/
def Server.handleSetState (sm : StateManager) (body : StateRequestBody) :
    StateManager × ControlOutcome :=
  match body with
  | .invalidJson detail =>
    (sm, { status := 400, errorText := some ("Invalid JSON: " ++ detail),
           message := none, validStates := [], warnings := [] })
  | .obj st sts p =>
    let states := requestedStates (.obj st sts p)
    if states.length = 0 then
      (sm, { status := 400, errorText := some invalidFormatText,
             message := none, validStates := [], warnings := [] })
    else
      let r := StateManager.setStates sm states p
      (r.1,
       { status := 200, errorText := none,
         message := some (if r.2.warnings.length > 0 then
             "Provider state(s) set with warnings"
           else "Provider state(s) set successfully"),
         validStates := r.2.validStates, warnings := r.2.warnings })

/-- `Server._handleResetState`: resets the registry, answers 200. -/
def Server.handleResetState (sm : StateManager) :
    StateManager × ControlOutcome :=
  (StateManager.reset sm,
   { status := 200, errorText := none,
     message := some "Provider states reset to default behavior",
     validStates := [], warnings := [] })

/-- One registry mutation reachable through the control endpoints. -/
inductive RegistryOp where
  | set (names : List String) (path : Option String)
  | reset
deriving DecidableEq, Repr

/-- Apply one registry mutation. -/
def applyOp (sm : StateManager) : RegistryOp → StateManager
  | .set names p => (StateManager.setStates sm names p).1
  | .reset => StateManager.reset sm

/-- Apply a sequence of registry mutations, oldest first. -/
def applyOps (sm : StateManager) (ops : List RegistryOp) : StateManager :=
  ops.foldl applyOp sm

/-- Default selection as the specification sentence reads literally:
the eligible subset is the no-state variants if any exist (across both
origins), otherwise all variants; the subset is ordered with
contract-origin variants before custom-origin ones; the first variant
of the subset with a 2xx status wins, else the subset's first variant.
This is the comparison point for the refinement claim about
`_getDefaultRoute`; the code itself is `StateManager.getDefaultRoute`. -/
def specDefaultSelection (options : List RouteOption) : Option RouteConfig :=
  let noState := options.filter fun opt => opt.states.isEmpty
  let eligible := if noState.isEmpty then options else noState
  let ordered := (eligible.filter fun opt => !opt.isCustom) ++
    (eligible.filter fun opt => opt.isCustom)
  match ordered.find? (fun opt =>
      200 ≤ opt.routeConfig.status && opt.routeConfig.status < 300) with
  | some opt => some opt.routeConfig
  | none => (ordered.head?).map fun opt => opt.routeConfig

/-- One origin side of the amended default-selection description: if the
side has no-state variants, the first 2xx one of them, else the first of
them; otherwise the side's first 2xx variant, if any. -/
def amendedSide (subset : List RouteOption) : Option RouteConfig :=
  if subset.any (fun opt => opt.states.isEmpty) then
    let pool := subset.filter fun opt => opt.states.isEmpty
    match pool.find? (fun opt =>
        200 ≤ opt.routeConfig.status && opt.routeConfig.status < 300) with
    | some opt => some opt.routeConfig
    | none => (pool.head?).map fun opt => opt.routeConfig
  else
    (subset.find? (fun opt =>
        200 ≤ opt.routeConfig.status && opt.routeConfig.status < 300)).map
      fun opt => opt.routeConfig

/-- The amended default-selection policy: the contract-origin side is
decided first by `amendedSide`; only if it yields nothing is the
custom-origin side tried; the last resort is the first variant in
registration order. -/
def amendedDefaultSelection (options : List RouteOption) :
    Option RouteConfig :=
  match amendedSide (options.filter fun opt => !opt.isCustom) with
  | some rc => some rc
  | none =>
    match amendedSide (options.filter fun opt => opt.isCustom) with
    | some rc => some rc
    | none => (options.head?).map fun opt => opt.routeConfig

/-- Whether the parsed body is the invalid-JSON case. -/
def StateRequestBody.isInvalidJson : StateRequestBody → Bool
  | .invalidJson _ => true
  | .obj _ _ _ => false

/-- Whether the parsed body carries a `states` field (even an empty one). -/
def StateRequestBody.hasStatesField : StateRequestBody → Bool
  | .obj _ (some _) _ => true
  | _ => false

/-- Whether the parsed body carries a `state` field. -/
def StateRequestBody.hasStateField : StateRequestBody → Bool
  | .obj (some _) _ _ => true
  | _ => false

/-! ## Helper lemmas -/

theorem mem_setDedup {s : String} : ∀ {l : List String},
    s ∈ setDedup l ↔ s ∈ l := by
  intro l
  induction l with
  | nil => simp [setDedup]
  | cons a rest ih =>
    simp only [setDedup, List.mem_cons, List.mem_filter, decide_eq_true_eq]
    constructor
    · rintro (h | ⟨h, _⟩)
      · exact Or.inl h
      · exact Or.inr (ih.mp h)
    · rintro (h | h)
      · exact Or.inl h
      · by_cases hs : s = a
        · exact Or.inl hs
        · exact Or.inr ⟨ih.mpr h, hs⟩

theorem splitChar_head (sep : Char) :
    ∀ l : List Char,
      ∃ gs, splitChar sep l = (l.takeWhile fun c => c != sep) :: gs := by
  intro l
  induction l with
  | nil => exact ⟨[], rfl⟩
  | cons c cs ih =>
    by_cases h : c = sep
    · refine ⟨splitChar sep cs, ?_⟩
      simp [splitChar, h, List.takeWhile_cons]
    · obtain ⟨gs, hgs⟩ := ih
      refine ⟨gs, ?_⟩
      simp [splitChar, h, hgs, List.takeWhile_cons]

theorem splitChar_append (sep : Char) (rest : List Char) :
    ∀ m : List Char, sep ∉ m →
      splitChar sep (m ++ sep :: rest) = m :: splitChar sep rest := by
  intro m
  induction m with
  | nil => intro _; simp [splitChar]
  | cons c m' ih =>
    intro h
    have hc : ¬ c = sep := by
      intro hc
      exact h (by simp [hc])
    have h1 : sep ∉ m' := fun hm => h (List.mem_cons_of_mem _ hm)
    simp [splitChar, ih h1, hc]

theorem routePathOf_createRouteKey (method p : String)
    (h : ':' ∉ (jsToUpperCase method).data) :
    routePathOf (createRouteKey method p) =
      String.mk (p.data.takeWhile fun c => c != ':') := by
  have hdata : (createRouteKey method p).data =
      (jsToUpperCase method).data ++ ':' :: p.data := by
    simp [createRouteKey, String.data_append]
  rw [routePathOf, hdata, splitChar_append _ _ _ h]
  obtain ⟨gs, hgs⟩ := splitChar_head ':' p.data
  rw [hgs]

theorem findNoStateRoutes_eq_filter_isEmpty (l : List RouteOption) :
    findNoStateRoutes l = l.filter fun opt => opt.states.isEmpty := by
  apply List.filter_congr
  intro o _
  cases o.states <;> simp

theorem amendedSide_eq_pickDefault (l : List RouteOption) :
    amendedSide l = pickDefault l := by
  by_cases h : l.any (fun opt => opt.states.isEmpty) = true
  · have hpool : findNoStateRoutes l ≠ [] := by
      rw [findNoStateRoutes_eq_filter_isEmpty]
      obtain ⟨x, hx, hpx⟩ := List.any_eq_true.mp h
      intro hnil
      have hmem : x ∈ l.filter fun opt => opt.states.isEmpty :=
        List.mem_filter.mpr ⟨hx, hpx⟩
      rw [hnil] at hmem
      exact absurd hmem (List.not_mem_nil x)
    cases hfnd : findNoStateRoutes l with
    | nil => exact absurd hfnd hpool
    | cons n ns =>
      rw [findNoStateRoutes_eq_filter_isEmpty] at hfnd
      simp only [amendedSide, h, if_true, hfnd, pickDefault,
        findNoStateRoutes_eq_filter_isEmpty, findSuccessRoute]
      cases hf : (n :: ns).find? (fun opt =>
          200 ≤ opt.routeConfig.status && opt.routeConfig.status < 300) <;>
        simp [hf]
  · have hempty : findNoStateRoutes l = [] := by
      rw [findNoStateRoutes_eq_filter_isEmpty]
      rw [List.filter_eq_nil_iff]
      intro x hx hpx
      exact h (List.any_eq_true.mpr ⟨x, hx, hpx⟩)
    rw [Bool.not_eq_true] at h
    simp [amendedSide, h, pickDefault, hempty, findSuccessRoute]

theorem pickDefault_nil : pickDefault [] = none := rfl

theorem getDefaultRoute_eq_amendedDefaultSelection
    (options : List RouteOption) :
    StateManager.getDefaultRoute options = amendedDefaultSelection options := by
  have hguard : ∀ l : List RouteOption,
      (if l.length > 0 then pickDefault l else none) = pickDefault l := by
    intro l
    cases l with
    | nil => simp [pickDefault_nil]
    | cons a as => simp
  simp only [StateManager.getDefaultRoute, amendedDefaultSelection,
    amendedSide_eq_pickDefault, hguard]

theorem firstStateMatch_eq_none {options : List RouteOption}
    (h : ∀ opt ∈ options, opt.states = []) :
    ∀ states, firstStateMatch states options = none := by
  intro states
  induction states with
  | nil => rfl
  | cons s rest ih =>
    simp only [firstStateMatch]
    have hnone : options.find? (fun opt => opt.states.contains s) = none := by
      rw [List.find?_eq_none]
      intro o ho
      rw [h o ho]
      simp
    rw [hnone, ih]

theorem findRoute_eq_getDefault {sm : StateManager} {routeKey : String}
    {options : List RouteOption}
    (hlk : lookupRoutes sm.stateRoutes routeKey = some options)
    (hne : options ≠ [])
    (hdef : sm.currentStates = [] ∨
      (∃ p, sm.currentPath = some p ∧
        jsStartsWith (routePathOf routeKey) p = false) ∨
      firstStateMatch sm.currentStates options = none) :
    sm.findRoute routeKey = StateManager.getDefaultRoute options := by
  have hlen : ¬ options.length = 0 := by simpa using hne
  simp only [StateManager.findRoute, hlk, if_neg hlen]
  by_cases hcs : sm.currentStates.length > 0
  · rw [if_pos hcs]
    rcases hdef with h | ⟨p, hp, hsw⟩ | hfsm
    · rw [h] at hcs
      exact absurd hcs (by simp)
    · rw [hp]
      simp [hsw]
    · cases hcp : sm.currentPath with
      | none => simp [hfsm]
      | some p =>
        by_cases hsw : jsStartsWith (routePathOf routeKey) p
        · simp [hsw, hfsm]
        · simp [hsw]
  · rw [if_neg hcs]

theorem conflict_mem_of_overlap
    {sr : List (String × List RouteOption)} {rk : String}
    {options : List RouteOption} {co ko : RouteOption} {s : String}
    (hmem : (rk, options) ∈ sr) (hco : co ∈ options)
    (hcoC : co.isCustom = true) (hko : ko ∈ options)
    (hkoC : ko.isCustom = false) (hs1 : s ∈ co.states)
    (hs2 : s ∈ ko.states) :
    ∃ c ∈ collectConflicts sr, c.route = rk ∧ s ∈ c.conflictingStates := by
  have hcoMem : co ∈ options.filter fun opt => opt.isCustom :=
    List.mem_filter.mpr ⟨hco, hcoC⟩
  have hkoMem : ko ∈ options.filter fun opt => !opt.isCustom :=
    List.mem_filter.mpr ⟨hko, by rw [hkoC]; rfl⟩
  have hany : ((setDedup co.states).any fun t => ko.states.contains t)
      = true :=
    List.any_eq_true.mpr ⟨s, mem_setDedup.mpr hs1, List.elem_iff.mpr hs2⟩
  refine ⟨⟨rk, (setDedup co.states).filter fun t => ko.states.contains t⟩,
    ?_, rfl, List.mem_filter.mpr ⟨mem_setDedup.mpr hs1,
      List.elem_iff.mpr hs2⟩⟩
  rw [collectConflicts, List.mem_flatMap]
  refine ⟨(rk, options), hmem, ?_⟩
  simp only [conflictsForKey]
  have h1 : (options.filter fun opt => opt.isCustom).length > 0 :=
    List.length_pos.mpr (List.ne_nil_of_mem hcoMem)
  have h2 : (options.filter fun opt => !opt.isCustom).length > 0 :=
    List.length_pos.mpr (List.ne_nil_of_mem hkoMem)
  rw [if_pos (by simp [h1, h2])]
  rw [List.mem_flatMap]
  refine ⟨co, hcoMem, ?_⟩
  rw [List.mem_filterMap]
  refine ⟨ko, hkoMem, ?_⟩
  rw [if_pos hany]

theorem overlap_of_conflict_mem
    {sr : List (String × List RouteOption)} {c : Conflict}
    (hc : c ∈ collectConflicts sr) :
    ∃ rk options co ko s, (rk, options) ∈ sr ∧ co ∈ options ∧
      co.isCustom = true ∧ ko ∈ options ∧ ko.isCustom = false ∧
      s ∈ co.states ∧ s ∈ ko.states ∧ c.route = rk := by
  rw [collectConflicts, List.mem_flatMap] at hc
  obtain ⟨kv, hkv, hc⟩ := hc
  obtain ⟨rk, options⟩ := kv
  simp only [conflictsForKey] at hc
  split at hc
  case isTrue hcond =>
    rw [List.mem_flatMap] at hc
    obtain ⟨co, hcoMem, hc⟩ := hc
    rw [List.mem_filterMap] at hc
    obtain ⟨ko, hkoMem, heq⟩ := hc
    split at heq
    case isTrue hany =>
      obtain ⟨t, htDedup, htContains⟩ := List.any_eq_true.mp hany
      obtain ⟨hco, hcoC⟩ := List.mem_filter.mp hcoMem
      obtain ⟨hko, hkoC⟩ := List.mem_filter.mp hkoMem
      refine ⟨rk, options, co, ko, t, hkv, hco, hcoC, hko, ?_,
        mem_setDedup.mp htDedup, List.elem_iff.mp htContains, ?_⟩
      · cases hb : ko.isCustom with
        | false => rfl
        | true => rw [hb] at hkoC; cases hkoC
      · cases heq
        rfl
    case isFalse hany => exact Option.noConfusion heq
  case isFalse hcond =>
    exact absurd hc (List.not_mem_nil c)

/-! ## Claim theorems -/

/-- Claim C5 — Conflict validation: `validateNoConflicts` throws if and
only if some route key has a custom-origin variant and a contract-origin
variant whose state sets share a name; the thrown message is built by
`conflictErrorMessage` from the collected conflicts, and every offending
(route key, shared state) pair appears in a collected conflict entry, so
the message names each offending key and state.  Coexisting contract and
custom variants with disjoint state sets do not abort startup. -/
theorem C5_conflict_validation (sr : List (String × List RouteOption)) :
    ((∃ msg, StateManager.validateNoConflicts sr = Except.error msg) ↔
      ∃ rk options co ko s, (rk, options) ∈ sr ∧ co ∈ options ∧
        co.isCustom = true ∧ ko ∈ options ∧ ko.isCustom = false ∧
        s ∈ co.states ∧ s ∈ ko.states)
  ∧ (∀ rk options co ko s, (rk, options) ∈ sr → co ∈ options →
      co.isCustom = true → ko ∈ options → ko.isCustom = false →
      s ∈ co.states → s ∈ ko.states →
      StateManager.validateNoConflicts sr =
        Except.error (conflictErrorMessage (collectConflicts sr)) ∧
      ∃ c ∈ collectConflicts sr, c.route = rk ∧ s ∈ c.conflictingStates) := by
  have herr : ∀ rk options co ko s, (rk, options) ∈ sr → co ∈ options →
      co.isCustom = true → ko ∈ options → ko.isCustom = false →
      s ∈ co.states → s ∈ ko.states →
      StateManager.validateNoConflicts sr =
        Except.error (conflictErrorMessage (collectConflicts sr)) := by
    intro rk options co ko s h1 h2 h3 h4 h5 h6 h7
    obtain ⟨c, hc, -, -⟩ := conflict_mem_of_overlap h1 h2 h3 h4 h5 h6 h7
    have hne : collectConflicts sr ≠ [] := List.ne_nil_of_mem hc
    have hlen : (collectConflicts sr).length > 0 := List.length_pos.mpr hne
    rw [StateManager.validateNoConflicts, if_pos hlen]
  constructor
  · constructor
    · rintro ⟨msg, hmsg⟩
      cases hl : collectConflicts sr with
      | nil =>
        rw [StateManager.validateNoConflicts, hl] at hmsg
        simp at hmsg
      | cons c cs =>
        have hc : c ∈ collectConflicts sr := by rw [hl]; exact List.mem_cons_self c cs
        obtain ⟨rk, options, co, ko, s, h1, h2, h3, h4, h5, h6, h7, -⟩ :=
          overlap_of_conflict_mem hc
        exact ⟨rk, options, co, ko, s, h1, h2, h3, h4, h5, h6, h7⟩
    · rintro ⟨rk, options, co, ko, s, h1, h2, h3, h4, h5, h6, h7⟩
      exact ⟨conflictErrorMessage (collectConflicts sr),
        herr rk options co ko s h1 h2 h3 h4 h5 h6 h7⟩
  · intro rk options co ko s h1 h2 h3 h4 h5 h6 h7
    refine ⟨herr rk options co ko s h1 h2 h3 h4 h5 h6 h7, ?_⟩
    obtain ⟨c, hc, hr, hs⟩ := conflict_mem_of_overlap h1 h2 h3 h4 h5 h6 h7
    exact ⟨c, hc, hr, hs⟩

/-- Claim C1 — Active-state priority: if a route key's variant list has a
variant tagged `s1` and a variant tagged `s2`, `activeStates` is
`[s1, s2]`, and no scope-path restriction excludes the key's path, then
`findRoute` returns the response of the first registered variant whose
state set contains `s1`, regardless of registration order of the two. -/
theorem C1_active_state_priority
    (sm : StateManager) (routeKey s1 s2 : String)
    (options : List RouteOption) (v1 v2 : RouteOption)
    (hlk : lookupRoutes sm.stateRoutes routeKey = some options)
    (hv1 : v1 ∈ options) (hs1 : s1 ∈ v1.states)
    (hv2 : v2 ∈ options) (hs2 : s2 ∈ v2.states)
    (hactive : sm.currentStates = [s1, s2])
    (hscope : ∀ p, sm.currentPath = some p →
      jsStartsWith (routePathOf routeKey) p = true) :
    ∃ m, options.find? (fun opt => opt.states.contains s1) = some m ∧
      sm.findRoute routeKey = some m.routeConfig ∧
      m.states.contains s1 = true := by
  have hsome : (options.find? fun opt => opt.states.contains s1).isSome :=
    List.find?_isSome.mpr ⟨v1, hv1, by simpa using hs1⟩
  obtain ⟨m, hm⟩ := Option.isSome_iff_exists.mp hsome
  refine ⟨m, hm, ?_, by simpa using List.find?_some hm⟩
  have hne : ¬ options.length = 0 := by
    intro h0
    rw [List.length_eq_zero] at h0
    rw [h0] at hv1
    exact absurd hv1 (List.not_mem_nil v1)
  have hcs : sm.currentStates.length > 0 := by rw [hactive]; simp
  have hscoped : (match sm.currentPath with
      | some p => !jsStartsWith (routePathOf routeKey) p
      | none => false) = false := by
    cases hcp : sm.currentPath with
    | none => rfl
    | some p => simp [hscope p hcp]
  simp only [StateManager.findRoute, hlk, if_neg hne, if_pos hcs, hscoped,
    Bool.false_eq_true, if_false, hactive, firstStateMatch, hm]
  simp

/-- Claim C3 — `setStates` replacement semantics: the new `activeStates`
is exactly the sublist of requested names present in the known-state
set, replacing (not extending) the previous selection; each rejected
name yields exactly one warning of the documented form; and an
all-invalid non-empty request still answers 200 with empty
`activeStates` and one warning per rejected name. -/
theorem C3_setStates_replacement
    (sm : StateManager) (names : List String) (p : Option String) :
    ((StateManager.setStates sm names p).1.currentStates =
        names.filter fun s => sm.availableStates.contains s)
  ∧ ((StateManager.setStates sm names p).2.validStates =
        names.filter fun s => sm.availableStates.contains s)
  ∧ ((StateManager.setStates sm names p).2.warnings =
        (names.filter fun s => !sm.availableStates.contains s).map
          fun s => s ++ " not found in contracts or custom routes")
  ∧ (names ≠ [] → (∀ s ∈ names, sm.availableStates.contains s = false) →
      (Server.handleSetState sm (.obj none (some names) p)).2.status = 200 ∧
      (Server.handleSetState sm (.obj none (some names) p)).1.currentStates
        = [] ∧
      (Server.handleSetState sm
          (.obj none (some names) p)).2.warnings.length = names.length) := by
  refine ⟨rfl, rfl, rfl, ?_⟩
  intro hne hall
  have hreq : requestedStates (.obj none (some names) p) = names := by
    simp [requestedStates]
  have hlen : ¬ names.length = 0 := by simpa using hne
  have hvalid : (names.filter fun s => sm.availableStates.contains s) = [] := by
    rw [List.filter_eq_nil_iff]
    intro s hs
    rw [hall s hs]
    simp
  have hinvalid : (names.filter fun s => !sm.availableStates.contains s)
      = names := by
    rw [List.filter_eq_self]
    intro s hs
    rw [hall s hs]
    rfl
  have hall' : ∀ s ∈ names, s ∉ sm.availableStates := by
    intro s hs hmem
    have hc := hall s hs
    have ht : sm.availableStates.contains s = true := List.elem_iff.mpr hmem
    rw [ht] at hc
    cases hc
  simp [Server.handleSetState, hreq, hlen, StateManager.setStates, hvalid,
    hinvalid]
  exact hall'

/-- Claim C4 — Scoping isolation: with a non-empty `activeStates` and a
scope path the route's path does not fall under, `findRoute` returns
exactly what it would return with `activeStates` empty. -/
theorem C4_scoping_isolation
    (sm : StateManager) (routeKey p : String)
    (hactive : sm.currentStates ≠ [])
    (hpath : sm.currentPath = some p)
    (hout : jsStartsWith (routePathOf routeKey) p = false) :
    sm.findRoute routeKey =
      StateManager.findRoute { sm with currentStates := [] } routeKey := by
  cases hlk : lookupRoutes sm.stateRoutes routeKey with
  | none =>
    simp only [StateManager.findRoute]
    rw [hlk]
  | some options =>
    by_cases hlen : options.length = 0
    · simp only [StateManager.findRoute]
      rw [hlk]
      simp [hlen]
    · have h1 : sm.findRoute routeKey = StateManager.getDefaultRoute options :=
        findRoute_eq_getDefault hlk (by simpa using hlen)
          (Or.inr (Or.inl ⟨p, hpath, hout⟩))
      have h2 : StateManager.findRoute { sm with currentStates := [] } routeKey
          = StateManager.getDefaultRoute options :=
        findRoute_eq_getDefault hlk (by simpa using hlen) (Or.inl rfl)
      rw [h1, h2]

/-- Claim C7 — Registry invariant: starting from the post-startup
registry (empty `activeStates`), any sequence of `setStates`/`reset`
operations leaves every name of `activeStates` inside the known-state
set; unknown names are filtered out before admission. -/
theorem C7_registry_invariant
    (sm : StateManager) (ops : List RegistryOp)
    (hstart : sm.currentStates = []) :
    ∀ s ∈ (applyOps sm ops).currentStates,
      s ∈ (applyOps sm ops).availableStates := by
  have key : ∀ (l : List RegistryOp) (t : StateManager),
      (∀ s ∈ t.currentStates, s ∈ t.availableStates) →
      ∀ s ∈ (applyOps t l).currentStates,
        s ∈ (applyOps t l).availableStates := by
    intro l
    induction l with
    | nil => intro t ht; exact ht
    | cons op rest ih =>
      intro t ht
      apply ih
      cases op with
      | set names q =>
        intro s hs
        simp only [applyOp, StateManager.setStates] at hs ⊢
        have := List.of_mem_filter hs
        simpa using this
      | reset =>
        intro s hs
        simp [applyOp, StateManager.reset] at hs
  apply key ops sm
  rw [hstart]
  intro s hs
  exact absurd hs (List.not_mem_nil s)

/-- Claim C8 — Irrelevant-state invariance: for a route key all of whose
variants are no-state, `findRoute` gives the same answer for every
`activeStates`/`scopePath` value as it does for empty `activeStates`. -/
theorem C8_irrelevant_state_invariance
    (sm : StateManager) (routeKey : String) (options : List RouteOption)
    (states' : List String) (path' : Option String)
    (hlk : lookupRoutes sm.stateRoutes routeKey = some options)
    (hall : ∀ opt ∈ options, opt.states = []) :
    StateManager.findRoute
        { sm with currentStates := states', currentPath := path' } routeKey =
      StateManager.findRoute
        { sm with currentStates := [], currentPath := none } routeKey := by
  by_cases hlen : options.length = 0
  · simp only [StateManager.findRoute]
    rw [show lookupRoutes sm.stateRoutes routeKey = some options from hlk]
    simp [hlen]
  · have hne : options ≠ [] := by simpa using hlen
    have h1 : StateManager.findRoute
        { sm with currentStates := states', currentPath := path' } routeKey =
        StateManager.getDefaultRoute options :=
      findRoute_eq_getDefault hlk hne
        (Or.inr (Or.inr (firstStateMatch_eq_none hall states')))
    have h2 : StateManager.findRoute
        { sm with currentStates := [], currentPath := none } routeKey =
        StateManager.getDefaultRoute options :=
      findRoute_eq_getDefault hlk hne (Or.inl rfl)
    rw [h1, h2]

/-- Claim C9 — the `state` field shadows `states`: for a valid-JSON body
carrying both a truthy `state` and a `states` array, the requested-name
list is exactly `[state]` and the handler behaves identically to the
same body without the `states` field, so names listed only in `states`
are neither activated nor warned about. -/
theorem C9_state_shadows_states
    (sm : StateManager) (s : String) (l : List String) (p : Option String)
    (hs : s ≠ "") :
    requestedStates (.obj (some s) (some l) p) = [s] ∧
    Server.handleSetState sm (.obj (some s) (some l) p) =
      Server.handleSetState sm (.obj (some s) none p) := by
  have h1 : requestedStates (.obj (some s) (some l) p) = [s] := by
    simp [requestedStates, hs]
  have h2 : requestedStates (.obj (some s) none p) = [s] := by
    simp [requestedStates, hs]
  refine ⟨h1, ?_⟩
  simp only [Server.handleSetState, h1, h2]

/-! ## Concrete fixtures used by counterexamples and witnesses -/

/-- Response of a contract-origin variant tagged with a state, 2xx. -/
def contractStatefulOk : RouteConfig := ⟨200, "contract stateful ok"⟩

/-- Response of a custom-origin variant with no state, 2xx. -/
def customNoStateOk : RouteConfig := ⟨200, "custom no-state ok"⟩

/-- A route key holding one stateful contract variant and one no-state
custom variant — legal, since their state sets share nothing. -/
def mixedOptions : List RouteOption :=
  [⟨contractStatefulOk, ["s"], false⟩, ⟨customNoStateOk, [], true⟩]

/-- A registry with no active state whose table has `mixedOptions`
registered under `GET:/api/v1/products`. -/
def mixedRegistry : StateManager :=
  ⟨[], none, ["s"], [("GET:/api/v1/products", mixedOptions)]⟩

/-- Claim C2 as stated is false on the code: with no active state, the
engine returns the stateful 2xx contract variant of `mixedOptions`
even though a no-state variant exists, because `_getDefaultRoute`
exhausts contract-origin options before looking at any custom-origin
option.  The literal reading of the claim (`specDefaultSelection`)
picks the no-state custom variant instead. -/
theorem C2_counterexample :
    StateManager.findRoute mixedRegistry "GET:/api/v1/products" =
      some contractStatefulOk
  ∧ specDefaultSelection mixedOptions = some customNoStateOk
  ∧ contractStatefulOk ≠ customNoStateOk
  ∧ (∃ opt ∈ mixedOptions,
      opt.states = [] ∧ opt.routeConfig = customNoStateOk)
  ∧ (∃ opt ∈ mixedOptions,
      opt.states ≠ [] ∧ opt.routeConfig = contractStatefulOk) := by
  refine ⟨rfl, rfl, by decide, ?_, ?_⟩
  · exact ⟨⟨customNoStateOk, [], true⟩, by decide, rfl, rfl⟩
  · exact ⟨⟨contractStatefulOk, ["s"], false⟩, by decide, by decide, rfl⟩

/-- Claim C2, amended — whenever no active state selects a variant
(empty `activeStates`, scope bypass, or no state matching any variant),
`findRoute` returns `amendedDefaultSelection`: the contract-origin side
is decided first (no-state contract variants preferred, 2xx-first, then
any 2xx contract variant), only then the custom-origin side the same
way, and as a last resort the first variant in registration order. -/
theorem C2_amended_default_selection
    (sm : StateManager) (routeKey : String) (options : List RouteOption)
    (hlk : lookupRoutes sm.stateRoutes routeKey = some options)
    (hne : options ≠ [])
    (hdef : sm.currentStates = [] ∨
      (∃ p, sm.currentPath = some p ∧
        jsStartsWith (routePathOf routeKey) p = false) ∨
      firstStateMatch sm.currentStates options = none) :
    sm.findRoute routeKey = amendedDefaultSelection options := by
  rw [findRoute_eq_getDefault hlk hne hdef,
    getDefaultRoute_eq_amendedDefaultSelection]

/-- A registry used by the control-endpoint counterexample/witnesses. -/
def sampleRegistry : StateManager := ⟨[], none, ["orders exist"], []⟩

/-- Claim C6 as stated is false on the code: the body
`\x7b"states": []\x7d` is valid JSON and does contain a `states` field,
yet `_handleSetState` answers 400, because the derived requested-name
list is empty. -/
theorem C6_counterexample :
    (StateRequestBody.obj none (some []) none).isInvalidJson = false
  ∧ (StateRequestBody.obj none (some []) none).hasStatesField = true
  ∧ (Server.handleSetState sampleRegistry
      (StateRequestBody.obj none (some []) none)).2.status = 400 :=
  ⟨rfl, rfl, rfl⟩

/-- Claim C6, amended — `_handleSetState` answers 400 exactly when the
body is invalid JSON or its derived requested-name list is empty (no
truthy `state` field and `states` missing or empty); every 400 answer
carries an error text and leaves the registry exactly as it was. -/
theorem C6_amended_malformed_body
    (sm : StateManager) (b : StateRequestBody) :
    ((Server.handleSetState sm b).2.status = 400 ↔
      (b.isInvalidJson = true ∨ requestedStates b = []))
  ∧ ((Server.handleSetState sm b).2.status = 400 →
      (Server.handleSetState sm b).1 = sm ∧
      (Server.handleSetState sm b).2.errorText.isSome = true) := by
  cases b with
  | invalidJson d =>
    simp [Server.handleSetState, StateRequestBody.isInvalidJson]
  | obj st sts p =>
    by_cases h : (requestedStates (.obj st sts p)).length = 0
    · have hnil : requestedStates (.obj st sts p) = [] :=
        List.length_eq_zero.mp h
      simp [Server.handleSetState, h, hnil, StateRequestBody.isInvalidJson]
    · have hnil : requestedStates (.obj st sts p) ≠ [] := by
        intro hq
        exact h (by rw [hq]; rfl)
      simp [Server.handleSetState, h, hnil, StateRequestBody.isInvalidJson]

/-- The variant list used by the C10 bypass instance: a 500 response
tagged `s1` and a 200 no-state response, both contract-origin, under a
path that itself contains a colon. -/
def colonPathOptions : List RouteOption :=
  [⟨⟨500, "s1 error"⟩, ["s1"], false⟩, ⟨⟨200, "no-state ok"⟩, [], false⟩]

/-- A registry with active state `s1` scoped to `/api/v1/orders:1` and
the `colonPathOptions` registered under `GET:/api/v1/orders:123`. -/
def colonPathRegistry : StateManager :=
  ⟨["s1"], some "/api/v1/orders:1", ["s1"],
   [("GET:/api/v1/orders:123", colonPathOptions)]⟩

/-- Claim C10 — the scope check truncates the route path at a colon:
for any route key built by `createRouteKey` from a colon-free method,
the path string the `startsWith(scopePath)` test sees is exactly the
portion of the path before its first colon; concretely, with scope
`/api/v1/orders:1` and route path `/api/v1/orders:123` (which does
start with the scope), the active state `s1` is bypassed and the
default no-state response is served instead of the `s1`-tagged one. -/
theorem C10_scope_truncates_at_colon :
    (∀ (method p : String), ':' ∉ (jsToUpperCase method).data →
      routePathOf (createRouteKey method p) =
        String.mk (p.data.takeWhile fun c => c != ':'))
  ∧ jsStartsWith "/api/v1/orders:123" "/api/v1/orders:1" = true
  ∧ StateManager.findRoute colonPathRegistry "GET:/api/v1/orders:123" =
      some ⟨200, "no-state ok"⟩
  ∧ firstStateMatch ["s1"] colonPathOptions = some ⟨500, "s1 error"⟩ := by
  refine ⟨fun method p h => routePathOf_createRouteKey method p h,
    by decide, rfl, rfl⟩

/-! ## Witnesses -/

/-- Variant list for the C1 witness: the `s2` variant is registered
before the `s1` variant. -/
def priorityOptions : List RouteOption :=
  [⟨⟨200, "tied to s2"⟩, ["s2"], false⟩, ⟨⟨200, "tied to s1"⟩, ["s1"], false⟩]

/-- Registry for the C1 witness: active states `["s1", "s2"]`, no scope. -/
def priorityRegistry : StateManager :=
  ⟨["s1", "s2"], none, ["s1", "s2"], [("GET:/api/v1/orders", priorityOptions)]⟩

/-- Witness for C1 at a concrete registry where the `s2` variant was
registered first: the `s1`-tagged response is still returned. -/
theorem C1_active_state_priority_witness :
    ∃ m, (priorityOptions.find? fun opt => opt.states.contains "s1")
        = some m ∧
      StateManager.findRoute priorityRegistry "GET:/api/v1/orders"
        = some m.routeConfig ∧
      m.states.contains "s1" = true :=
  C1_active_state_priority priorityRegistry "GET:/api/v1/orders" "s1" "s2"
    priorityOptions ⟨⟨200, "tied to s1"⟩, ["s1"], false⟩
    ⟨⟨200, "tied to s2"⟩, ["s2"], false⟩ rfl (by decide) (by decide)
    (by decide) (by decide) rfl (fun p hp => by cases hp)

/-- Witness for the amended C2 at `mixedRegistry` (no active state). -/
theorem C2_amended_default_selection_witness :
    StateManager.findRoute mixedRegistry "GET:/api/v1/products" =
      amendedDefaultSelection mixedOptions :=
  C2_amended_default_selection mixedRegistry "GET:/api/v1/products"
    mixedOptions rfl (by decide) (Or.inl rfl)

/-- Witness for C3: an all-invalid one-name request against
`sampleRegistry` answers 200, leaves `activeStates` empty and returns
one warning. -/
theorem C3_setStates_replacement_witness :
    (Server.handleSetState sampleRegistry
        (.obj none (some ["nonexistent state"]) none)).2.status = 200 ∧
    (Server.handleSetState sampleRegistry
        (.obj none (some ["nonexistent state"]) none)).1.currentStates = [] ∧
    (Server.handleSetState sampleRegistry
        (.obj none (some ["nonexistent state"]) none)).2.warnings.length =
      (["nonexistent state"] : List String).length :=
  (C3_setStates_replacement sampleRegistry ["nonexistent state"] none).2.2.2
    (by decide) (by decide)

/-- Registry for the C4 witness: state `s1` scoped to `/api/v1/orders`,
while the looked-up key lives under `/api/v1/products`. -/
def scopedRegistry : StateManager :=
  ⟨["s1"], some "/api/v1/orders", ["s1"],
   [("GET:/api/v1/products",
     [⟨⟨500, "products s1"⟩, ["s1"], false⟩, ⟨⟨200, "products ok"⟩, [], false⟩])]⟩

/-- Witness for C4 at `scopedRegistry`. -/
theorem C4_scoping_isolation_witness :
    StateManager.findRoute scopedRegistry "GET:/api/v1/products" =
      StateManager.findRoute { scopedRegistry with currentStates := [] }
        "GET:/api/v1/products" :=
  C4_scoping_isolation scopedRegistry "GET:/api/v1/products" "/api/v1/orders"
    (by decide) rfl (by decide)

/-- Route table with one genuine custom/contract state overlap. -/
def conflictTable : List (String × List RouteOption) :=
  [("GET:/api/v1/products",
    [⟨⟨500, "custom error"⟩, ["get products error out"], true⟩,
     ⟨⟨200, "contract ok"⟩, ["get products error out"], false⟩])]

/-- Witness for C5 at `conflictTable`: validation throws and the
collected conflicts name the offending key and state. -/
theorem C5_conflict_validation_witness :
    StateManager.validateNoConflicts conflictTable =
      Except.error (conflictErrorMessage (collectConflicts conflictTable)) ∧
    ∃ c ∈ collectConflicts conflictTable, c.route = "GET:/api/v1/products" ∧
      "get products error out" ∈ c.conflictingStates :=
  (C5_conflict_validation conflictTable).2 "GET:/api/v1/products"
    [⟨⟨500, "custom error"⟩, ["get products error out"], true⟩,
     ⟨⟨200, "contract ok"⟩, ["get products error out"], false⟩]
    ⟨⟨500, "custom error"⟩, ["get products error out"], true⟩
    ⟨⟨200, "contract ok"⟩, ["get products error out"], false⟩
    "get products error out" (by decide) (by decide) (by decide) (by decide)
    (by decide) (by decide) (by decide)

/-- Witness for the amended C6: an invalid-JSON body leaves the registry
untouched and carries an error text. -/
theorem C6_amended_malformed_body_witness :
    (Server.handleSetState sampleRegistry (.invalidJson "bad")).1 =
      sampleRegistry ∧
    (Server.handleSetState sampleRegistry
        (.invalidJson "bad")).2.errorText.isSome = true :=
  (C6_amended_malformed_body sampleRegistry (.invalidJson "bad")).2
    (by decide)

/-- Witness for C7: after a set of a mixed valid/invalid list, a reset
and another set, the surviving active state is a known one. -/
theorem C7_registry_invariant_witness :
    "orders exist" ∈ (applyOps sampleRegistry
      [.set ["orders exist", "bogus"] none, .reset,
       .set ["orders exist"] none]).availableStates :=
  C7_registry_invariant sampleRegistry
    [.set ["orders exist", "bogus"] none, .reset, .set ["orders exist"] none]
    rfl "orders exist" (by decide)

/-- Registry for the C8 witness: a single no-state variant. -/
def noStateRegistry : StateManager :=
  ⟨[], none, ["s1"], [("GET:/api/v1/products", [⟨⟨200, "ok"⟩, [], false⟩])]⟩

/-- Witness for C8: activating an undeclared state (even scoped) does
not change the outcome for an all-no-state key. -/
theorem C8_irrelevant_state_invariance_witness :
    StateManager.findRoute
        { noStateRegistry with currentStates := ["s1"], currentPath := some "/api" } "GET:/api/v1/products" =
      StateManager.findRoute
        { noStateRegistry with currentStates := [], currentPath := none }
        "GET:/api/v1/products" :=
  C8_irrelevant_state_invariance noStateRegistry "GET:/api/v1/products"
    [⟨⟨200, "ok"⟩, [], false⟩] ["s1"] (some "/api") rfl (by decide)

/-- Witness for C9: with both fields present, the body behaves exactly
like the body without its `states` field. -/
theorem C9_state_shadows_states_witness :
    requestedStates (.obj (some "orders exist") (some ["other"]) none) =
      ["orders exist"] ∧
    Server.handleSetState sampleRegistry
        (.obj (some "orders exist") (some ["other"]) none) =
      Server.handleSetState sampleRegistry
        (.obj (some "orders exist") none none) :=
  C9_state_shadows_states sampleRegistry "orders exist" ["other"] none
    (by decide)

/-- Witness for C10: the truncation equation evaluated at a concrete
colon-bearing path. -/
theorem C10_scope_truncates_at_colon_witness :
    ':' ∉ (jsToUpperCase "GET").data ∧
    routePathOf (createRouteKey "GET" "/api/v1/orders:123") =
      String.mk ("/api/v1/orders:123".data.takeWhile fun c => c != ':') :=
  ⟨by decide, C10_scope_truncates_at_colon.1 "GET" "/api/v1/orders:123"
    (by decide)⟩

end MockServer
